import Mathlib

/-!
# Verification of the autoimport source-rewriting core

A shallow embedding of `src/autoimport/model.py` (the `SourceCode` entity and
its helpers), over which the spec's claims about section splitting and
joining, relocation of imports, and binding editing are stated and settled.

Python lines are modelled as `String` values without `'\n'` (the result of
`str.splitlines`).  Python regular expressions are modelled by a small
backtracking matcher (`Matcher`) returning the set of possible remainders of
a prefix match; every pattern of the source is transliterated
combinator-by-combinator.  The external collaborators (the pyflakes-based
diagnostic engine, and the module / typing / project searchers, which consult
the interpreter environment and filesystem) are parameters of the model, as
the spec treats them: black boxes fixed as pure functions.
-/

namespace Autoimport

/-! ## Python string primitives (over `List Char`) -/

/-- Python whitespace for `str.strip` / regex `\s` (ASCII). -/
def pyIsSpace (c : Char) : Bool :=
  c = ' ' || c = '\t' || c = '\n' || c = '\r' || c = '\x0b' || c = '\x0c'

/-- Drop leading whitespace characters. -/
def dropSpace : List Char → List Char
  | [] => []
  | c :: cs => if pyIsSpace c then dropSpace cs else c :: cs

/-- `str.lstrip()`. -/
def pyLstrip (s : String) : String := ⟨dropSpace s.data⟩

/-- `str.strip()`: whitespace trimmed from both ends. -/
def pyStrip (s : String) : String :=
  ⟨((dropSpace s.data.reverse).reverse : List Char) |> dropSpace |>.reverse |>.reverse⟩

/-- Does the string contain the character? (Python `c in s`). -/
def pyContainsChar (s : String) (c : Char) : Bool := s.data.contains c

/-- Split on a single character, Python `str.split(c)`: always non-empty,
keeps empty parts. -/
def splitCharAux (c : Char) : List Char → List Char → List String
  | acc, [] => [⟨acc.reverse⟩]
  | acc, x :: xs =>
    if x = c then ⟨acc.reverse⟩ :: splitCharAux c [] xs
    else splitCharAux c (x :: acc) xs

/-- Python `str.split(c)` for a one-character separator. -/
def pySplitChar (s : String) (c : Char) : List String := splitCharAux c [] s.data

/-- `sep.join(xs)`. -/
def pyJoin (sep : String) : List String → String
  | [] => ""
  | [x] => x
  | x :: xs => x ++ sep ++ pyJoin sep xs

/-- Does the string end with a newline (`str.endswith("\n")`)? -/
def endsWithNewline (s : String) : Bool := s.data.getLast? = some '\n'

/-- Python `str.splitlines()` for texts whose only line break is `'\n'`:
empty string gives `[]`, a trailing newline yields no trailing empty line. -/
def pySplitlines (s : String) : List String :=
  if s = "" then []
  else
    let parts := pySplitChar s '\n'
    if endsWithNewline s then parts.dropLast else parts

/-- First position of `pat` (non-empty) as a sublist of `s`, if any. -/
def findSub (pat : List Char) : List Char → Option Nat
  | [] => if pat = [] then some 0 else none
  | c :: cs =>
    if pat.isPrefixOf (c :: cs) then some 0
    else (findSub pat cs).map (· + 1)

/-- Python `str.split(sep)` for a multi-character separator (leftmost,
non-overlapping). -/
def splitStrAux (sep : List Char) : List Char → Nat → List String
  | s, fuel =>
    match fuel with
    | 0 => [⟨s⟩]
    | fuel + 1 =>
      match findSub sep s with
      | none => [⟨s⟩]
      | some i => ⟨s.take i⟩ :: splitStrAux sep (s.drop (i + sep.length)) fuel

/-- Python `str.split(sep)`, `sep` a non-empty string. -/
def pySplitStr (s : String) (sep : String) : List String :=
  splitStrAux sep.data s.data (s.data.length + 1)

/-! ## Python list primitives -/

/-- Errors the modelled Python code can raise. -/
inductive PyErr where
  | valueError
  | indexError
deriving DecidableEq, Repr

/-- Python `list.remove(x)` when the element is known present: remove the
first occurrence, identity if absent (the model only calls it this way when
presence is guaranteed by the iteration that produced `x`). -/
def removeFirst : List String → String → List String
  | [], _ => []
  | y :: ys, x => if y = x then ys else y :: removeFirst ys x

/-- Python `list.remove(x)` in general: `ValueError` when `x` is absent. -/
def pyListRemove (xs : List String) (x : String) : Except PyErr (List String) :=
  if xs.contains x then .ok (removeFirst xs x) else .error .valueError

/-- Python `list.index(x)` for a present element: index of first occurrence. -/
def pyIndexOf (xs : List String) (x : String) : Nat := xs.indexOf x

/-- Python indexing `xs[i]` with negative-index support. -/
def pyGetInt (xs : List String) (i : Int) : Except PyErr String :=
  let j : Int := if i < 0 then i + xs.length else i
  if h : 0 ≤ j ∧ j < xs.length then .ok (xs.get ⟨j.toNat, by omega⟩)
  else .error .indexError

/-- Python `list.pop(i)` with negative-index support, returning the
remaining list. -/
def pyPopInt (xs : List String) (i : Int) : Except PyErr (List String) :=
  let j : Int := if i < 0 then i + xs.length else i
  if 0 ≤ j ∧ j < xs.length then .ok (xs.eraseIdx j.toNat)
  else .error .indexError

/-! ## Regular-expression matcher

A `Matcher` maps an input character list to the list of remainders of every
possible prefix match; a pattern `re.match`es a string when the remainder
set of its matcher is non-empty (or contains `[]` for `$`-anchored
patterns).  Greedy versus lazy repetition does not affect these boolean
semantics, so both are modelled by the same combinator. -/

abbrev Matcher := List Char → List (List Char)

/-- Match a single character satisfying `p`. -/
def mChar (p : Char → Bool) : Matcher
  | [] => []
  | c :: cs => if p c then [cs] else []

/-- Sequencing. -/
def mSeq (a b : Matcher) : Matcher := fun s => (a s).flatMap b

/-- `?`: zero or one occurrence. -/
def mOpt (a : Matcher) : Matcher := fun s => s :: a s

/-- `*` over a character class: all remainders obtained by consuming a
(possibly empty) run of characters satisfying `p`. -/
def mStar (p : Char → Bool) : List Char → List (List Char)
  | [] => [[]]
  | c :: cs => (c :: cs) :: (if p c then mStar p cs else [])

/-- `+` over a character class. -/
def mPlus (p : Char → Bool) : Matcher := mSeq (mChar p) (mStar p)

/-- A literal string. -/
def mLit (lit : String) : Matcher := fun s =>
  if lit.data.isPrefixOf s then [s.drop lit.data.length] else []

/-- Match the characters of `pat` one by one against the input, a `'.'` in
`pat` matching any character; returns the remainder on success. -/
def litDotMatch : List Char → List Char → Option (List Char)
  | [], rest => some rest
  | _ :: _, [] => none
  | p :: ps, c :: cs => if p = '.' || p = c then litDotMatch ps cs else none

/-- An interpolated Python name as a pattern; a `'.'` inside the name is an
(unescaped) regex wildcard and matches any character, as in the f-string
patterns of `_remove_unused_imports`. -/
def mLitDot (lit : String) : Matcher := fun s =>
  match litDotMatch lit.data s with
  | some rest => [rest]
  | none => []

/-- Alternation. -/
def mAlt (a b : Matcher) : Matcher := fun s => a s ++ b s

/-- Regex `.`: any character except a newline. -/
def isDot (c : Char) : Bool := c ≠ '\n'

/-- Regex `[^\'\"]`. -/
def notQuote (c : Char) : Bool := c ≠ '\'' && c ≠ '\"'

/-- Regex `[a-z]`. -/
def isLower (c : Char) : Bool := 'a' ≤ c && c ≤ 'z'

/-- Regex `("|')`. -/
def isQuote (c : Char) : Bool := c = '\"' || c = '\''

/-- `re.match(pat, s)` as a boolean for an unanchored pattern: some prefix of
`s` matches. -/
def matchesAt (m : Matcher) (s : String) : Bool := m s.data ≠ []

/-- `re.match(pat, s)` for a `$`-anchored pattern: the whole of `s` matches. -/
def matchesAll (m : Matcher) (s : String) : Bool := (m s.data).contains []

/-! ## The regular expressions of `model.py`, transliterated -/

/-- `re.match(r'"{3}.*"{3}', line)` — single-line docstring. -/
def reSingleLineDocstring (l : String) : Bool :=
  matchesAt (mSeq (mLit "\"\"\"") (mSeq (mStar isDot) (mLit "\"\"\""))) l

/-- `re.match(r'""" ?', line)` — end of a multi-line docstring. -/
def reDocstringEnd (l : String) : Bool :=
  matchesAt (mSeq (mLit "\"\"\"") (mOpt (mChar (· = ' ')))) l

/-- `re.match(r'"{3}.*', line)` — start of a multi-line docstring. -/
def reDocstringStart (l : String) : Bool :=
  matchesAt (mSeq (mLit "\"\"\"") (mStar isDot)) l

/-- `re.match(r"#.*", line)` — a comment line. -/
def reComment (l : String) : Bool :=
  matchesAt (mSeq (mLit "#") (mStar isDot)) l

/-- `re.match(r"^if TYPE_CHECKING:$", line)`. -/
def reTypeChecking (l : String) : Bool :=
  matchesAll (mLit "if TYPE_CHECKING:") l

/-- `re.match(r"^(try|except.*):$", line)`. -/
def reTryExcept (l : String) : Bool :=
  matchesAll
    (mSeq (mAlt (mLit "try") (mSeq (mLit "except") (mStar isDot))) (mLit ":")) l

/-- `re.match(r"^\s*(from .*)?import.[^\'\"]*$", line)` — the import-line
pattern of `_extract_import_statements` (no space required after `import`). -/
def reExtractImport (l : String) : Bool :=
  matchesAll
    (mSeq (mStar pyIsSpace)
      (mSeq (mOpt (mSeq (mLit "from ") (mStar isDot)))
        (mSeq (mLit "import") (mSeq (mChar isDot) (mStar notQuote))))) l

/-- `re.match(r"^\s+.*", line)` — an indented line (typing-block body). -/
def reIndented (l : String) : Bool :=
  matchesAt (mSeq (mPlus pyIsSpace) (mStar isDot)) l

/-- `re.match(r"^\s*(?:from .*)?import .[^\'\"]*$", line)` — the import-line
pattern of `_move_imports_to_top` (space after `import` required). -/
def reMoveImport (l : String) : Bool :=
  matchesAll
    (mSeq (mStar pyIsSpace)
      (mSeq (mOpt (mSeq (mLit "from ") (mStar isDot)))
        (mSeq (mLit "import ") (mSeq (mChar isDot) (mStar notQuote))))) l

/-- `re.match(r".*?# ?fmt:.*?skip.*", line)`. -/
def reFmtSkip (l : String) : Bool :=
  matchesAt
    (mSeq (mStar isDot)
      (mSeq (mLit "#")
        (mSeq (mOpt (mChar (· = ' ')))
          (mSeq (mLit "fmt:")
            (mSeq (mStar isDot) (mSeq (mLit "skip") (mStar isDot))))))) l

/-- `re.match(r".*?# ?noqa:.*?autoimport.*", line)`. -/
def reNoqaAutoimport (l : String) : Bool :=
  matchesAt
    (mSeq (mStar isDot)
      (mSeq (mLit "#")
        (mSeq (mOpt (mChar (· = ' ')))
          (mSeq (mLit "noqa:")
            (mSeq (mStar isDot) (mSeq (mLit "autoimport") (mStar isDot))))))) l

/-- `re.match(r"^.*?(\"|\'){3}.*?(?!\1{3})$", line)`: after the three quote
characters, the lazy `.*?` must reach the end of the line, where the
negative lookahead `(?!\1{3})` always succeeds (no characters remain), so
the pattern holds exactly when the line consists of any characters, three
consecutive quote characters, and any characters to the end. -/
def reTripleQuote (l : String) : Bool :=
  matchesAll
    (mSeq (mStar isDot)
      (mSeq (mChar isQuote)
        (mSeq (mChar isQuote) (mSeq (mChar isQuote) (mStar isDot))))) l

/-- Does the character list contain `[q, q, q]` as a sublist? -/
def containsTriple (q : Char) (s : List Char) : Bool :=
  (findSub [q, q, q] s).isSome

/-- `re.match(r"^.*?(\"|\'){3}.*?\1{3}", line)`: three consecutive quote
characters whose last repetition captures the quote `q`, later followed by
`q` three more times. -/
def reClosedTripleQuote : List Char → Bool
  | c₁ :: c₂ :: c₃ :: rest =>
    (isQuote c₁ && isQuote c₂ && isQuote c₃ && containsTriple c₃ rest)
      || reClosedTripleQuote (c₂ :: c₃ :: rest)
  | _ => false

/-- The multi-line-string toggle of `_move_imports_to_top`: an unclosed
triple-quote marker on the line. -/
def stringToggle (l : String) : Bool :=
  reTripleQuote l && !reClosedTripleQuote l.data

/-- `re.match` of
`rf"(from {p} )?import ({p}\.)?{o}( *as [a-z]+)?( *#.*)?$"` —
the sole-binding import-line pattern of `_remove_unused_imports`. -/
def reSoleImport (p o : String) (l : String) : Bool :=
  matchesAll
    (mSeq (mOpt (mSeq (mLit "from ") (mSeq (mLitDot p) (mLit " "))))
      (mSeq (mLit "import ")
        (mSeq (mOpt (mSeq (mLitDot p) (mLit ".")))
          (mSeq (mLitDot o)
            (mSeq (mOpt (mSeq (mStar (· = ' ')) (mSeq (mLit "as ") (mPlus isLower))))
              (mOpt (mSeq (mStar (· = ' ')) (mSeq (mLit "#") (mStar isDot))))))))) l

/-- `re.match(rf"from {p} import .*?{o}", line)` — a shared single-line
`from` statement containing the object name. -/
def reSharedFrom (p o : String) (l : String) : Bool :=
  matchesAt
    (mSeq (mLit "from ")
      (mSeq (mLitDot p) (mSeq (mLit " import ") (mSeq (mStar isDot) (mLitDot o))))) l

/-- The groups of
`re.match(fr"(?P<from>from {p} import) (?P<imports>.*)", line)`:
when the pattern matches, returns the matched text of the `from` group —
the fixed-length prefix `from {p} import` of the line (`p`'s dots are
wildcards but its length is fixed) — and of the greedy `imports` group. -/
def matchFromGroups (p : String) (l : String) : Option (String × String) :=
  let pre := "from " ++ p ++ " import"
  match mSeq (mLitDot pre) (mLit " ") l.data with
  | [] => none
  | rest :: _ => some (⟨l.data.take pre.data.length⟩, ⟨rest⟩)

/-- `re.match(fr"from {p} import .*?\($", line)` — opener of a multi-line
parenthesized import. -/
def reMultilineOpen (p : String) (l : String) : Bool :=
  matchesAll
    (mSeq (mLit "from ")
      (mSeq (mLitDot p) (mSeq (mLit " import ") (mSeq (mStar isDot) (mLit "("))))) l

/-- `re.match(rf"\s*?{o},?", line)` — continuation line carrying the object. -/
def reContinuation (o : String) (l : String) : Bool :=
  matchesAt (mSeq (mStar pyIsSpace) (mSeq (mLitDot o) (mOpt (mChar (· = ','))))) l

/-- `re.match(r"\s*from .* import", line)` — collapse check of the
multi-line removal branch. -/
def reCollapseFrom (l : String) : Bool :=
  matchesAt
    (mSeq (mStar pyIsSpace)
      (mSeq (mLit "from ") (mSeq (mStar isDot) (mLit " import")))) l

/-! ## Data model -/

/-- The pyflakes messages `SourceCode._fix_flake_import_errors` inspects,
keyed by their `message_args[0]`; any other message kind is ignored. -/
inductive Msg where
  | undefinedName (name : String)
  | undefinedExport (name : String)
  | unusedImport (qualifiedName : String)
  | other
deriving DecidableEq, Repr

/-- The optional configuration dictionary: the two shapes
`config["common_statements"]` and
`config["tool"]["autoimport"]["common_statements"]` that
`_get_additional_statements` reads, each an optional name-to-import-string
table. -/
structure Config where
  commonStatements : Option (List (String × String)) := none
  toolAutoimportCommonStatements : Option (List (String × String)) := none
deriving DecidableEq, Repr

/-- The `SourceCode` entity: the four line sections, the configuration and
the trailing-newline marker. -/
structure SourceCode where
  header : List String := []
  imports : List String := []
  typing : List String := []
  code : List String := []
  config : Config := {}
  trailingNewline : Bool := false
deriving DecidableEq, Repr

/-! ## Section scanner (`_split_code` and helpers) -/

/-- The `docstring_type` loop variable of `_extract_header`
(`None` / `"start_multiple_lines"` / `"multiple_lines"`). -/
inductive DocstringType where
  | startMultipleLines
  | multipleLines
deriving DecidableEq, Repr

/-- `SourceCode._extract_header`: leading comments, blank lines and the
module docstring. -/
def extractHeaderAux (dt : Option DocstringType) : List String → List String
  | [] => []
  | l :: ls =>
    if reSingleLineDocstring l then [l]
    else if dt = some .startMultipleLines && reDocstringEnd l then
      l :: extractHeaderAux (some .multipleLines) ls
    else if reDocstringStart l then
      l :: extractHeaderAux (some .startMultipleLines) ls
    else if reComment l || l = "" then
      l :: extractHeaderAux dt ls
    else if dt = none || dt = some .multipleLines then []
    else l :: extractHeaderAux dt ls

/-- `SourceCode._extract_import_statements`: the loop over the lines after
the header, with the `multiline_import` flag and the buffered
`try:`/`except ...:` line. -/
def extractImportsAux (multilineImport : Bool) (tryLine : Option String) :
    List String → List String
  | [] => []
  | l :: ls =>
    if reTypeChecking l then []
    else if reTryExcept l then extractImportsAux multilineImport (some l) ls
    else if reExtractImport l || l = "" || multilineImport then
      let mi := if pyContainsChar l '(' then true
                else if pyContainsChar l ')' then false
                else multilineImport
      (match tryLine with | some t => [t] | none => []) ++
        l :: extractImportsAux mi none ls
    else []

/-- `SourceCode._extract_typing_statements`: an optional
`if TYPE_CHECKING:` guard line and its indented (or blank) block. -/
def extractTypingAux : List String → List String
  | [] => []
  | l :: ls =>
    if reTypeChecking l then
      l :: ls.takeWhile (fun x => reIndented x || x = "")
    else []

/-- `SourceCode._split_code` (with `__init__`'s field initialisation):
partition the text into header, imports, typing and code sections and
record the trailing newline. -/
def splitCode (config : Config) (sourceCode : String) : SourceCode :=
  let lines := pySplitlines sourceCode
  let header := extractHeaderAux none lines
  let imports := extractImportsAux false none (lines.drop header.length)
  let typing := extractTypingAux (lines.drop (header.length + imports.length))
  let code := lines.drop (header.length + imports.length + typing.length)
  { header := header, imports := imports, typing := typing, code := code,
    config := config, trailingNewline := endsWithNewline sourceCode }

/-! ## Section joiner (`_join_code`) -/

/-- A section participates in the joined output when it is non-empty and
not the single empty line. -/
def sectionKept (s : List String) : Bool := s.length > 0 && s ≠ [""]

/-- `SourceCode._join_code`.  The two Python indexings `sections[0]` and
`sections[-1]` are modelled by `headD`/`getLastD` with an `""` default; the
defaults are only reachable on states no `_split_code` result produces
(Python would raise `IndexError` there). -/
def joinCode (sc : SourceCode) : String :=
  let sections :=
    ([sc.header, sc.imports, sc.typing, sc.code].filter sectionKept).map
      (fun s => pyStrip (pyJoin "\n" s))
  let sourceCode :=
    if sections.length > 2 then pyStrip (pyJoin "\n\n" sections.dropLast)
    else if sections.length = 2 || (sections.length = 1 && sc.code.length = 0) then
      sections.headD ""
    else ""
  let sourceCode :=
    if sections.length ≥ 2 then sourceCode ++ "\n\n\n" else sourceCode
  let sourceCode :=
    if sc.code.length > 0 then sourceCode ++ sections.getLastD "" else sourceCode
  if sc.trailingNewline then sourceCode ++ "\n" else sourceCode

/-! ## Import relocator (`_move_imports_to_top`, `_split_separation_line`) -/

/-- `SourceCode._should_ignore_line`. -/
def shouldIgnoreLine (l : String) : Bool := reFmtSkip l || reNoqaAutoimport l

/-- A run of `n` spaces. -/
def mkSpaces : Nat → String
  | 0 => ""
  | n + 1 => " " ++ mkSpaces n

/-- `SourceCode._split_separation_line`: `first_line, next_line =
line.split(";")` raises `ValueError` unless the split has exactly two
parts; the remainder is re-indented with the first part's leading
whitespace. -/
def splitSeparationLine (l : String) : Except PyErr (String × String) :=
  match pySplitChar l ';' with
  | [firstLine, nextLine] =>
    let numLspaces := firstLine.data.length - (pyLstrip firstLine).data.length
    .ok (firstLine, mkSpaces numLspaces ++ pyLstrip nextLine)
  | _ => .error .valueError

/-- The body scan of `_move_imports_to_top`: threading the
`multiline_import` and `multiline_string` flags over the code lines, it
returns the body lines after in-place semicolon splitting, the lines
appended to the imports section, the `code_lines_to_remove` list, and the
final flag values. -/
def movePhase1 (mi ms : Bool) :
    List String → Except PyErr (List String × List String × List String × Bool × Bool)
  | [] => .ok ([], [], [], mi, ms)
  | l :: ls =>
    if stringToggle l then do
      let (c, im, rm, mi', ms') ← movePhase1 mi (!ms) ls
      .ok (l :: c, im, rm, mi', ms')
    else if (!pyContainsChar l '=' && !ms && reMoveImport l) || mi then
      if shouldIgnoreLine l then do
        let (c, im, rm, mi', ms') ← movePhase1 mi ms ls
        .ok (l :: c, im, rm, mi', ms')
      else if pyContainsChar l ';' then do
        let (importLine, nextLine) ← splitSeparationLine l
        let (c, im, rm, mi', ms') ← movePhase1 mi ms ls
        .ok (nextLine :: c, pyStrip importLine :: im, rm, mi', ms')
      else
        let miNew := if pyContainsChar l '(' then true
                     else if pyContainsChar l ')' then false
                     else mi
        let appended := if !miNew then pyStrip l else l
        do
          let (c, im, rm, mi', ms') ← movePhase1 miNew ms ls
          .ok (l :: c, appended :: im, l :: rm, mi', ms')
    else do
      let (c, im, rm, mi', ms') ← movePhase1 mi ms ls
      .ok (l :: c, im, rm, mi', ms')

/-- `SourceCode._move_imports_to_top`: the scan, then
`self.code.remove(line)` for every collected line (first occurrence). -/
def moveImportsToTop (sc : SourceCode) : Except PyErr SourceCode := do
  let (c, im, rm, _, _) ← movePhase1 false false sc.code
  .ok { sc with imports := sc.imports ++ im, code := rm.foldl removeFirst c }

/-! ## Name resolver (`_find_package` and the common-statements table) -/

/-- The module-level `common_statements` dictionary. -/
def commonStatements : List (String × String) := [
  ("ABC", "from abc import ABC"),
  ("abstractmethod", "from abc import abstractmethod"),
  ("BaseModel", "from pydantic import BaseModel  # noqa: E0611"),
  ("BeautifulSoup", "from bs4 import BeautifulSoup"),
  ("call", "from unittest.mock import call"),
  ("CaptureFixture", "from _pytest.capture import CaptureFixture"),
  ("CliRunner", "from click.testing import CliRunner"),
  ("copyfile", "from shutil import copyfile"),
  ("datetime", "from datetime import datetime"),
  ("dedent", "from textwrap import dedent"),
  ("Enum", "from enum import Enum"),
  ("Faker", "from faker import Faker"),
  ("FrozenDateTimeFactory", "from freezegun.api import FrozenDateTimeFactory"),
  ("LocalPath", "from py._path.local import LocalPath"),
  ("LogCaptureFixture", "from _pytest.logging import LogCaptureFixture"),
  ("Mock", "from unittest.mock import Mock"),
  ("ModelFactory", "from pydantic_factories import ModelFactory"),
  ("Path", "from pathlib import Path"),
  ("patch", "from unittest.mock import patch"),
  ("StringIO", "from io import StringIO"),
  ("suppress", "from contextlib import suppress"),
  ("TempdirFactory", "from _pytest.tmpdir import TempdirFactory"),
  ("tz", "from dateutil import tz"),
  ("YAMLError", "from yaml import YAMLError")]

/-- Dictionary lookup. -/
def assocLookup (d : List (String × String)) (k : String) : Option String :=
  (d.find? (fun kv => kv.1 = k)).map (·.2)

/-- `base.copy()` followed by `base.update(add)`, observed through lookup:
entries of `add` win. -/
def dictUpdate (base add : List (String × String)) (k : String) : Option String :=
  (assocLookup add k).orElse (fun _ => assocLookup base k)

/-- `SourceCode._get_additional_statements`: the flat
`common_statements` entry if truthy (present and non-empty), else the
nested `tool.autoimport.common_statements` entry. -/
def getAdditionalStatements (c : Config) : Option (List (String × String)) :=
  match c.commonStatements with
  | some d => if d ≠ [] then some d else c.toolAutoimportCommonStatements
  | none => c.toolAutoimportCommonStatements

/-- `SourceCode._find_package_in_common_statements`: defaults overridden by
the additional statements when those are truthy. -/
def findPackageInCommonStatements (c : Config) (name : String) : Option String :=
  match getAdditionalStatements c with
  | some add =>
    if add ≠ [] then dictUpdate commonStatements add name
    else assocLookup commonStatements name
  | none => assocLookup commonStatements name

/-- `SourceCode._find_package`: the ordered resolver chain.  The module,
typing and project searchers (`_find_package_in_modules`,
`_find_package_in_typing`, `_find_package_in_our_project`) read the
interpreter environment and the filesystem, so they enter the model as the
pure-function parameters `mods`, `typs` and `projs`. -/
def findPackage (mods typs projs : String → Option String) (c : Config)
    (name : String) : Option String :=
  match findPackageInCommonStatements c name with
  | some pkg => some pkg
  | none =>
    match mods name with
    | some pkg => some pkg
    | none =>
      match typs name with
      | some pkg => some pkg
      | none => projs name

/-- `SourceCode._add_package`: append the resolved import string, or do
nothing when resolution fails. -/
def addPackage (mods typs projs : String → Option String) (sc : SourceCode)
    (objectName : String) : SourceCode :=
  match findPackage mods typs projs sc.config objectName with
  | some importString => { sc with imports := sc.imports ++ [importString] }
  | none => sc

/-! ## Unused-import removal (`_remove_unused_imports`) -/

/-- The `while` loop of the multi-line branch: starting from the opener's
index, scan forward for a continuation line matching the object name and
pop it.  The loop advances `ln` towards `imps.length`, so running it on
fuel `imps.length` reproduces the Python `while line_number + 1 <
len(self.imports)` loop exactly. -/
def multilineWhileAux (o : String) (imps : List String) :
    Nat → Nat → List String × Nat
  | 0, ln => (imps, ln)
  | fuel + 1, ln =>
    if ln + 1 < imps.length then
      if reContinuation o (imps.getD (ln + 1) "") then (imps.eraseIdx (ln + 1), ln + 1)
      else multilineWhileAux o imps fuel (ln + 1)
    else (imps, ln)

/-- The `while` loop of the multi-line branch, at full fuel. -/
def multilineWhile (o : String) (imps : List String) (ln : Nat) :
    List String × Nat :=
  multilineWhileAux o imps imps.length ln

/-- The multi-line branch body: pop the matching continuation line, then
collapse the opener and the closing `)` when nothing is left between them.
Indexing follows Python (negative indices wrap, out-of-range raises). -/
def multilineRemove (o : String) (imps : List String) (ln₀ : Nat) :
    Except PyErr (List String) :=
  let (im₂, ln) := multilineWhile o imps ln₀
  do
    let prev ← pyGetInt im₂ ((ln : Int) - 1)
    if reCollapseFrom prev then do
      let cur ← pyGetInt im₂ (ln : Int)
      if cur = ")" then do
        let im₃ ← pyPopInt im₂ (ln : Int)
        pyPopInt im₃ ((ln : Int) - 1)
      else .ok im₂
    else .ok im₂

/-- The `for line in self.imports` loop of `_remove_unused_imports`:
iterate over the (unmutated) list, acting on the first line that matches
one of the three patterns; `full` is the list the actions edit. -/
def removeUnusedAux (p o : String) (full : List String) :
    List String → Except PyErr (List String)
  | [] => .ok full
  | l :: ls =>
    if shouldIgnoreLine l then removeUnusedAux p o full ls
    else if reSoleImport p o l then .ok (removeFirst full l)
    else if reSharedFrom p o l then
      match matchFromGroups p l with
      | some grps => do
        let lineNumber := pyIndexOf full l
        let importsList ← pyListRemove (pySplitStr grps.2 ", ") o
        let newImports := pyJoin ", " importsList
        .ok (full.set lineNumber (grps.1 ++ " " ++ newImports))
      | none => removeUnusedAux p o full ls
    else if reMultilineOpen p l then multilineRemove o full (pyIndexOf full l)
    else removeUnusedAux p o full ls

/-- `SourceCode._remove_unused_imports` as a function of the imports
section: decompose the qualified name and run the search loop. -/
def removeUnusedImports (importName : String) (imports : List String) :
    Except PyErr (List String) :=
  let parts := pySplitChar importName '.'
  let packageName := pyJoin "." parts.dropLast
  let objectName := parts.getLastD ""
  removeUnusedAux packageName objectName imports imports

/-! ## Fix orchestrator (`fix`, `_fix_flake_import_errors`) -/

/-- The message loop of `_fix_flake_import_errors`, with the
`fixed_packages` deduplication list. -/
def fixFlakeAux (mods typs projs : String → Option String) :
    List Msg → List String → SourceCode → Except PyErr SourceCode
  | [], _, sc => .ok sc
  | .undefinedName n :: rest, fixedPackages, sc =>
    if fixedPackages.contains n then fixFlakeAux mods typs projs rest fixedPackages sc
    else
      fixFlakeAux mods typs projs rest (fixedPackages ++ [n])
        (addPackage mods typs projs sc n)
  | .undefinedExport n :: rest, fixedPackages, sc =>
    if fixedPackages.contains n then fixFlakeAux mods typs projs rest fixedPackages sc
    else
      fixFlakeAux mods typs projs rest (fixedPackages ++ [n])
        (addPackage mods typs projs sc n)
  | .unusedImport n :: rest, fixedPackages, sc => do
    let imps ← removeUnusedImports n sc.imports
    fixFlakeAux mods typs projs rest fixedPackages { sc with imports := imps }
  | .other :: rest, fixedPackages, sc => fixFlakeAux mods typs projs rest fixedPackages sc

/-- `SourceCode._fix_flake_import_errors`: one diagnostic pass over the
joined text (`autoflake.check`, the external diagnostic engine, enters as
the parameter `diagnose`), then the message loop. -/
def fixFlakeImportErrors (diagnose : String → List Msg)
    (mods typs projs : String → Option String) (sc : SourceCode) :
    Except PyErr SourceCode :=
  fixFlakeAux mods typs projs (diagnose (joinCode sc)) [] sc

/-- `SourceCode.fix`: relocate, diagnose and edit, join. -/
def SourceCode.fix (diagnose : String → List Msg)
    (mods typs projs : String → Option String) (sc : SourceCode) :
    Except PyErr String := do
  let sc₁ ← moveImportsToTop sc
  let sc₂ ← fixFlakeImportErrors diagnose mods typs projs sc₁
  .ok (joinCode sc₂)

/-- `SourceCode(source_code, config).fix()`: the whole pipeline on a text. -/
def fixString (diagnose : String → List Msg)
    (mods typs projs : String → Option String) (config : Config)
    (sourceCode : String) : Except PyErr String :=
  (splitCode config sourceCode).fix diagnose mods typs projs

instance {ε α : Type} [DecidableEq ε] [DecidableEq α] : DecidableEq (Except ε α) :=
  fun x y =>
    match x, y with
    | .ok a, .ok b =>
      if h : a = b then isTrue (by rw [h]) else isFalse (by simp [h])
    | .error a, .error b =>
      if h : a = b then isTrue (by rw [h]) else isFalse (by simp [h])
    | .ok _, .error _ => isFalse (by simp)
    | .error _, .ok _ => isFalse (by simp)

/-- The searcher that never finds anything; also usable as a diagnostic
engine stub via `fun _ => []`. -/
def noSearch : String → Option String := fun _ => none

/-- The diagnostic engine that reports no findings. -/
def noFindings : String → List Msg := fun _ => []

/-! ## Concrete collaborator instances used by the claims' scenarios -/

/-- The diagnostic engine reporting one unused binding `os.path`
(pyflakes' report for an unused `from os import path`). -/
def diagOsPathUnused : String → List Msg := fun _ => [.unusedImport "os.path"]

/-- The diagnostic engine reporting the two unused imports of an
`import os` / `import sys` file whose body is empty. -/
def diagOsSysUnused : String → List Msg := fun _ => [.unusedImport "os", .unusedImport "sys"]

/-- The diagnostic engine reporting the same undefined name three times in
one pass. -/
def diagPathThrice : String → List Msg :=
  fun _ => List.replicate 3 (.undefinedName "Path")

/-- A configuration overriding the built-in common statement for `Path`. -/
def overrideConfig : Config :=
  { commonStatements := some [("Path", "from mypath import Path")] }

/-! ## Claim C1 — idempotence of `fix` -/

/-- C1: the claim that `fix (fix x) = fix x` for every input (diagnostic
engine and resolver fixed as pure functions) fails on the code.  On the
input below — a duplicated `import os` line, one copy inside a multi-line
string — the first `fix` relocates the body import but
`self.code.remove(line)` deletes the *first* equal line, the one inside
the string, leaving the real import in the body; the second `fix` then
produces a different text, so `fix` is not idempotent.  (The engine is
held fixed as the pure function reporting no findings.) -/
theorem C1_fix_not_idempotent_on_string_shadowed_duplicate :
    fixString noFindings noSearch noSearch noSearch {}
        "x = \"\"\"\nimport os\n\"\"\"\nimport os"
      = .ok "import os\n\n\nx = \"\"\"\n\"\"\"\nimport os"
    ∧ fixString noFindings noSearch noSearch noSearch {}
        "import os\n\n\nx = \"\"\"\n\"\"\"\nimport os"
      = .ok "import os\n\n\nimport os\n\n\nx = \"\"\"\n\"\"\""
    ∧ ("import os\n\n\nimport os\n\n\nx = \"\"\"\n\"\"\"" : String)
      ≠ "import os\n\n\nx = \"\"\"\n\"\"\"\nimport os" :=
  ⟨by decide, by decide, by decide⟩

/-! ## Monadic-bind reduction helpers -/

theorem exceptOkBind {ε α β : Type} (a : α) (f : α → Except ε β) :
    (Except.ok a : Except ε α) >>= f = f a := rfl

theorem exceptErrorBind {ε α β : Type} (e : ε) (f : α → Except ε β) :
    (Except.error e : Except ε α) >>= f = Except.error e := rfl

/-! ## Claim C2 — no-op on already-correct code -/

/-- When no body line passes the import-candidate test (no `=`-free line
matching the move pattern), the body scan of `_move_imports_to_top`
changes nothing, whatever the multi-line-string state. -/
theorem movePhase1_no_candidates (lines : List String)
    (h : ∀ l ∈ lines, (!pyContainsChar l '=' && reMoveImport l) = false) :
    ∀ ms, ∃ msF, movePhase1 false ms lines = .ok (lines, [], [], false, msF) := by
  induction lines with
  | nil => exact fun ms => ⟨ms, rfl⟩
  | cons l ls ih =>
    intro ms
    have hl := h l (by simp)
    have hls : ∀ x ∈ ls, (!pyContainsChar x '=' && reMoveImport x) = false :=
      fun x hx => h x (by simp [hx])
    have hcand : (!pyContainsChar l '=' && !ms && reMoveImport l) = false := by
      revert hl
      cases pyContainsChar l '=' <;> cases reMoveImport l <;> cases ms <;> simp
    by_cases ht : stringToggle l = true
    · obtain ⟨msF, hrec⟩ := ih hls (!ms)
      exact ⟨msF, by simp [movePhase1, ht, hrec, exceptOkBind]⟩
    · obtain ⟨msF, hrec⟩ := ih hls ms
      refine ⟨msF, ?_⟩
      simp only [movePhase1, ht]
      simp [hcand, hrec, exceptOkBind]

/-- `_move_imports_to_top` is the identity when no body line is an import
candidate. -/
theorem moveImportsToTop_no_candidates (sc : SourceCode)
    (h : ∀ l ∈ sc.code, (!pyContainsChar l '=' && reMoveImport l) = false) :
    moveImportsToTop sc = .ok sc := by
  obtain ⟨msF, h1⟩ := movePhase1_no_candidates sc.code h false
  simp [moveImportsToTop, h1, exceptOkBind]

/-- C2: the claim `fix x = x` for inputs with no findings and no import in
the body fails on the code, which canonicalises the blank-line structure:
on `"# c\na = 1"` (no findings, no body import) `fix` inserts the
canonical two blank lines and returns a different text. -/
theorem C2_counterexample_spacing_canonicalised :
    fixString noFindings noSearch noSearch noSearch {} "# c\na = 1"
      = .ok "# c\n\n\na = 1"
    ∧ ("# c\n\n\na = 1" : String) ≠ "# c\na = 1"
    ∧ ((splitCode {} "# c\na = 1").code.all
        fun l => !(!pyContainsChar l '=' && reMoveImport l)) = true :=
  ⟨by decide, by decide, by decide⟩

/-- C2 (amended): if additionally the input already carries the canonical
section separation — splitting and rejoining the text reproduces it — then
`fix x = x` exactly: with no import candidate in the body the relocation
pass is the identity, with no findings the editing pass is the identity,
and the join then reproduces `x`. -/
theorem C2_noop_on_canonical_input (diagnose : String → List Msg)
    (mods typs projs : String → Option String) (cfg : Config) (x : String)
    (hbody : ∀ l ∈ (splitCode cfg x).code,
      (!pyContainsChar l '=' && reMoveImport l) = false)
    (hdiag : diagnose (joinCode (splitCode cfg x)) = [])
    (hcanon : joinCode (splitCode cfg x) = x) :
    fixString diagnose mods typs projs cfg x = .ok x := by
  unfold fixString SourceCode.fix
  rw [moveImportsToTop_no_candidates _ hbody, exceptOkBind]
  unfold fixFlakeImportErrors
  rw [hdiag]
  simp [fixFlakeAux, exceptOkBind, hcanon]

/-- C2 witness: the amended no-op theorem applied to the canonical text
`"import os\n\n\nos.getcwd()"`. -/
theorem C2_noop_witness :
    fixString noFindings noSearch noSearch noSearch {} "import os\n\n\nos.getcwd()"
      = .ok "import os\n\n\nos.getcwd()" :=
  C2_noop_on_canonical_input noFindings noSearch noSearch noSearch {}
    "import os\n\n\nos.getcwd()" (by decide) (by decide) (by decide)

/-! ## Claim C3 — removal from a shared single-line `from` import -/

/-- C3: on the input `"from os import getcwd, path\n\ngetcwd()"` with the
engine reporting the unused binding `os.path`, `fix` removes only `path`
from the comma-joined list and rewrites the line with the remaining names,
yielding exactly `"from os import getcwd\n\n\ngetcwd()"`; on a shared
line, only the reported object is removed — at the beginning, middle or
end of the list — with the remaining names kept in order, comma-space
joined. -/
theorem C3_shared_from_line_removal :
    fixString diagOsPathUnused noSearch noSearch noSearch {}
        "from os import getcwd, path\n\ngetcwd()"
      = .ok "from os import getcwd\n\n\ngetcwd()"
    ∧ removeUnusedImports "os.path" ["from os import path, getcwd, sep"]
      = .ok ["from os import getcwd, sep"]
    ∧ removeUnusedImports "os.path" ["from os import getcwd, path, sep"]
      = .ok ["from os import getcwd, sep"]
    ∧ removeUnusedImports "os.path" ["from os import getcwd, sep, path"]
      = .ok ["from os import getcwd, sep"] :=
  ⟨by decide, by decide, by decide, by decide⟩

/-! ## Claim C4 — deduplication of repeated undefined-name reports -/

/-- Once a name has entered `fixed_packages`, every further report of it in
the same pass is skipped. -/
theorem fixFlakeAux_replicate_skip (mods typs projs : String → Option String)
    (n : String) (fp : List String) (sc : SourceCode) (h : fp.contains n = true) :
    ∀ m, fixFlakeAux mods typs projs (List.replicate m (.undefinedName n)) fp sc
      = .ok sc := by
  intro m
  induction m with
  | zero => rfl
  | succ k ih =>
    have hmem : n ∈ fp := by simpa using h
    simp [List.replicate, fixFlakeAux, h, hmem, ih]

/-- C4: when the diagnostic engine reports the same undefined name `m ≥ 1`
times in one fix cycle and the name resolves to `s`,
`_fix_flake_import_errors` appends exactly one import line for it. -/
theorem C4_duplicate_reports_add_one_import (mods typs projs : String → Option String)
    (sc : SourceCode) (n s : String) (m : Nat) (hm : 1 ≤ m)
    (hres : findPackage mods typs projs sc.config n = some s) :
    fixFlakeAux mods typs projs (List.replicate m (.undefinedName n)) [] sc
      = .ok { sc with imports := sc.imports ++ [s] } := by
  obtain ⟨k, rfl⟩ : ∃ k, m = k + 1 := ⟨m - 1, by omega⟩
  have h1 : fixFlakeAux mods typs projs (List.replicate (k + 1) (.undefinedName n)) [] sc
      = fixFlakeAux mods typs projs (List.replicate k (.undefinedName n)) [n]
        { sc with imports := sc.imports ++ [s] } := by
    simp [List.replicate, fixFlakeAux, addPackage, hres]
  rw [h1]
  exact fixFlakeAux_replicate_skip mods typs projs n [n]
    { sc with imports := sc.imports ++ [s] } (by simp) k

/-- C4 witness: three reports of the undefined name `Path` on an empty
document add the single common-statement import line. -/
theorem C4_witness :
    fixFlakeAux noSearch noSearch noSearch
        (List.replicate 3 (.undefinedName "Path")) [] {}
      = .ok { imports := ["from pathlib import Path"] } := by
  simpa using C4_duplicate_reports_add_one_import noSearch noSearch noSearch {}
    "Path" "from pathlib import Path" 3 (by decide) (by decide)

/-! ## Claim C5 — output of a fully emptied document -/

/-- C5: the claim's first clause — a document left with no header, no
remaining imports and empty body makes `fix` return `""` — fails on the
code when the input ended with a newline: Scenario C itself
(`"import os\nimport sys\n"`, both imports reported unused) returns the
one-character string `"\n"`, not `""`. -/
theorem C5_counterexample_trailing_newline :
    fixString diagOsSysUnused noSearch noSearch noSearch {} "import os\nimport sys\n"
      = .ok "\n"
    ∧ ("\n" : String) ≠ "" :=
  ⟨by decide, by decide⟩

/-- C5 (amended): with everything empty the joined output is `""`, plus a
newline when the original text ended with one; with exactly one remaining
(added) import line and everything else empty, the output is that import,
plus a newline when the original text ended with one; and Scenario C
returns `"\n"`. -/
theorem C5_minimal_output (cfg : Config) (b : Bool) (s : String)
    (hs : s ≠ "") (hstrip : pyStrip s = s) :
    joinCode { config := cfg, trailingNewline := b } = (if b then "\n" else "")
    ∧ joinCode { imports := [s], config := cfg, trailingNewline := b }
      = s ++ (if b then "\n" else "")
    ∧ fixString diagOsSysUnused noSearch noSearch noSearch {} "import os\nimport sys\n"
      = .ok "\n" := by
  refine ⟨by cases b <;> rfl, ?_, by decide⟩
  unfold joinCode
  simp [sectionKept, pyJoin, hstrip, hs]
  cases b <;> simp

/-- C5 witness: the amended statement at a concrete emptied document and a
concrete one-import document with a trailing newline. -/
theorem C5_witness :
    joinCode { trailingNewline := true } = "\n"
    ∧ joinCode { imports := ["import foo"], trailingNewline := true }
      = "import foo\n" := by
  have h := C5_minimal_output {} true "import foo" (by decide) (by decide)
  exact ⟨h.1.trans (by decide), h.2.1.trans (by decide)⟩

/-! ## Claim C6 — joining a document with empty body -/

/-- C6: the claim that a document with non-empty header and imports and an
empty body joins to header followed by imports with no trailing separator
fails on the code: `_join_code` only appends `sections[-1]` when
`len(self.code) > 0`, so with an empty body the imports section is dropped
from the output and a `"\n\n\n"` separator *is* appended after the header.
Shown on `_join_code` directly and through `fix` on the corresponding text
(engine reporting no findings). -/
theorem C6_join_drops_imports_when_body_empty :
    joinCode { header := ["\"\"\"Docstring.\"\"\""], imports := ["import os"] }
      = "\"\"\"Docstring.\"\"\"\n\n\n"
    ∧ fixString noFindings noSearch noSearch noSearch {} "\"\"\"Docstring.\"\"\"\nimport os\n"
      = .ok "\"\"\"Docstring.\"\"\"\n\n\n\n" :=
  ⟨by decide, by decide⟩

/-! ## Claim C7 — suppression markers -/

/-- Removing the first occurrence of one string leaves the count of any
other string unchanged. -/
theorem removeFirst_count_ne (c : List String) (r l : String) (h : r ≠ l) :
    (removeFirst c r).count l = c.count l := by
  induction c with
  | nil => rfl
  | cons y ys ih =>
    by_cases hy : y = r
    · subst hy
      simp [removeFirst, List.count_cons, Ne.symm h]
    · simp [removeFirst, hy, List.count_cons, ih]

/-- Folding first-occurrence removals of strings different from `l` leaves
the count of `l` unchanged. -/
theorem foldl_removeFirst_count (rm : List String) :
    ∀ (c : List String) (l : String), (∀ r ∈ rm, r ≠ l) →
      (rm.foldl removeFirst c).count l = c.count l := by
  induction rm with
  | nil => intro c l _; rfl
  | cons r rs ih =>
    intro c l h
    have h1 : r ≠ l := h r (by simp)
    have h2 : ∀ x ∈ rs, x ≠ l := fun x hx => h x (by simp [hx])
    simp only [List.foldl_cons]
    rw [ih (removeFirst c r) l h2, removeFirst_count_ne c r l h1]

/-- The body scan of `_move_imports_to_top` never decreases the number of
occurrences of a suppression-marked line in the body, and every line it
schedules for removal is unmarked. -/
theorem movePhase1_count (l : String) (hl : shouldIgnoreLine l = true) :
    ∀ (lines : List String) (mi ms : Bool) (c im rm : List String) (miF msF : Bool),
      movePhase1 mi ms lines = .ok (c, im, rm, miF, msF) →
      lines.count l ≤ c.count l ∧ ∀ r ∈ rm, shouldIgnoreLine r = false := by
  intro lines
  induction lines with
  | nil =>
    intro mi ms c im rm miF msF h
    simp only [movePhase1, Except.ok.injEq, Prod.mk.injEq] at h
    obtain ⟨hc, _, hrm, _⟩ := h
    subst hc
    simp_all
  | cons x ls ih =>
    intro mi ms c im rm miF msF h
    simp only [movePhase1] at h
    by_cases ht : stringToggle x = true
    · rw [if_pos ht] at h
      cases hrec : movePhase1 mi (!ms) ls with
      | error e => rw [hrec] at h; exact absurd h (by simp [exceptErrorBind])
      | ok r =>
        obtain ⟨c', im', rm', miF', msF'⟩ := r
        rw [hrec, exceptOkBind] at h
        simp only [Except.ok.injEq, Prod.mk.injEq] at h
        obtain ⟨hc, _, hrm, _⟩ := h
        subst hc
        obtain ⟨ih1, ih2⟩ := ih mi (!ms) c' im' rm' miF' msF' hrec
        subst hrm
        constructor
        · simp only [List.count_cons]
          omega
        · exact ih2
    · rw [if_neg ht] at h
      by_cases hcand : ((!pyContainsChar x '=' && !ms && reMoveImport x) || mi) = true
      · rw [if_pos hcand] at h
        by_cases hig : shouldIgnoreLine x = true
        · rw [if_pos hig] at h
          cases hrec : movePhase1 mi ms ls with
          | error e => rw [hrec] at h; exact absurd h (by simp [exceptErrorBind])
          | ok r =>
            obtain ⟨c', im', rm', miF', msF'⟩ := r
            rw [hrec, exceptOkBind] at h
            simp only [Except.ok.injEq, Prod.mk.injEq] at h
            obtain ⟨hc, _, hrm, _⟩ := h
            subst hc
            obtain ⟨ih1, ih2⟩ := ih mi ms c' im' rm' miF' msF' hrec
            subst hrm
            constructor
            · simp only [List.count_cons]
              omega
            · exact ih2
        · rw [if_neg hig] at h
          have hxl : x ≠ l := fun e => by rw [e, hl] at hig; exact hig rfl
          by_cases hsemi : pyContainsChar x ';' = true
          · rw [if_pos hsemi] at h
            cases hsp : splitSeparationLine x with
            | error e => rw [hsp] at h; exact absurd h (by simp [exceptErrorBind])
            | ok pr =>
              obtain ⟨a, b⟩ := pr
              rw [hsp, exceptOkBind] at h
              cases hrec : movePhase1 mi ms ls with
              | error e => rw [hrec] at h; exact absurd h (by simp [exceptErrorBind])
              | ok r =>
                obtain ⟨c', im', rm', miF', msF'⟩ := r
                rw [hrec, exceptOkBind] at h
                simp only [Except.ok.injEq, Prod.mk.injEq] at h
                obtain ⟨hc, _, hrm, _⟩ := h
                subst hc
                obtain ⟨ih1, ih2⟩ := ih mi ms c' im' rm' miF' msF' hrec
                subst hrm
                constructor
                · rw [List.count_cons_of_ne (Ne.symm hxl)]
                  have h2 : c'.count l ≤ (b :: c').count l :=
                    (List.sublist_cons_self b c').count_le l
                  omega
                · exact ih2
          · rw [if_neg hsemi] at h
            cases hrec : movePhase1
                (if pyContainsChar x '(' = true then true
                 else if pyContainsChar x ')' = true then false else mi) ms ls with
            | error e => rw [hrec] at h; exact absurd h (by simp [exceptErrorBind])
            | ok r =>
              obtain ⟨c', im', rm', miF', msF'⟩ := r
              rw [hrec, exceptOkBind] at h
              simp only [Except.ok.injEq, Prod.mk.injEq] at h
              obtain ⟨hc, _, hrm, _⟩ := h
              subst hc
              obtain ⟨ih1, ih2⟩ := ih _ ms c' im' rm' miF' msF' hrec
              subst hrm
              refine ⟨?_, ?_⟩
              · simp only [List.count_cons]
                omega
              · intro r hr
                rcases List.mem_cons.mp hr with h1 | h1
                · subst h1
                  exact Bool.not_eq_true _ ▸ (by simpa using hig)
                · exact ih2 r h1
      · rw [if_neg hcand] at h
        cases hrec : movePhase1 mi ms ls with
        | error e => rw [hrec] at h; exact absurd h (by simp [exceptErrorBind])
        | ok r =>
          obtain ⟨c', im', rm', miF', msF'⟩ := r
          rw [hrec, exceptOkBind] at h
          simp only [Except.ok.injEq, Prod.mk.injEq] at h
          obtain ⟨hc, _, hrm, _⟩ := h
          subst hc
          obtain ⟨ih1, ih2⟩ := ih mi ms c' im' rm' miF' msF' hrec
          subst hrm
          constructor
          · simp only [List.count_cons]
            omega
          · exact ih2

/-- Overwriting the first occurrence of `l` cannot decrease the count of a
different string `l'`. -/
theorem count_set_indexOf_le (l new l' : String) (hne : l ≠ l') :
    ∀ (full : List String), l ∈ full →
      full.count l' ≤ (full.set (full.indexOf l) new).count l' := by
  intro full
  induction full with
  | nil => intro h; cases h
  | cons y ys ih =>
    intro hmem
    by_cases hy : y = l
    · subst hy
      rw [List.indexOf_cons_self]
      simp only [List.set_cons_zero, List.count_cons_of_ne (Ne.symm hne)]
      exact (List.sublist_cons_self new ys).count_le l'
    · have hmem' : l ∈ ys := by
        rcases List.mem_cons.mp hmem with h1 | h1
        · exact absurd h1.symm hy
        · exact h1
      rw [List.indexOf_cons_ne _ (fun e => hy e)]
      simp only [List.set_cons_succ, List.count_cons]
      have := ih hmem'
      omega

/-- With no multi-line opener for the package among the scanned lines,
`_remove_unused_imports` never decreases the number of occurrences of a
suppression-marked line. -/
theorem removeUnusedAux_count (p o l' : String) (hig : shouldIgnoreLine l' = true) :
    ∀ (rest full out : List String),
      (∀ x ∈ rest, x ∈ full) → (∀ x ∈ rest, reMultilineOpen p x = false) →
      removeUnusedAux p o full rest = .ok out →
      full.count l' ≤ out.count l' := by
  intro rest
  induction rest with
  | nil =>
    intro full out _ _ h
    simp only [removeUnusedAux, Except.ok.injEq] at h
    exact le_of_eq (by rw [h])
  | cons x xs ih =>
    intro full out hsub hopen h
    have hxfull : x ∈ full := hsub x (by simp)
    have hsub' : ∀ y ∈ xs, y ∈ full := fun y hy => hsub y (by simp [hy])
    have hopen' : ∀ y ∈ xs, reMultilineOpen p y = false := fun y hy => hopen y (by simp [hy])
    simp only [removeUnusedAux] at h
    by_cases h1 : shouldIgnoreLine x = true
    · rw [if_pos h1] at h
      exact ih full out hsub' hopen' h
    · rw [if_neg h1] at h
      have hxl : x ≠ l' := fun e => by rw [e, hig] at h1; exact h1 rfl
      by_cases h2 : reSoleImport p o x = true
      · rw [if_pos h2] at h
        simp only [Except.ok.injEq] at h
        subst h
        exact le_of_eq (removeFirst_count_ne full x l' hxl).symm
      · rw [if_neg h2] at h
        by_cases h3 : reSharedFrom p o x = true
        · rw [if_pos h3] at h
          cases hg : matchFromGroups p x with
          | none =>
            simp only [hg] at h
            exact ih full out hsub' hopen' h
          | some grps =>
            simp only [hg] at h
            cases hrem : pyListRemove (pySplitStr grps.2 ", ") o with
            | error e =>
              rw [hrem] at h
              exact absurd h (by simp [exceptErrorBind])
            | ok lst =>
              rw [hrem, exceptOkBind] at h
              simp only [Except.ok.injEq] at h
              subst h
              exact count_set_indexOf_le x _ l' hxl full hxfull
        · rw [if_neg h3] at h
          have h4 : reMultilineOpen p x = false := hopen x (by simp)
          rw [if_neg (by simp [h4])] at h
          exact ih full out hsub' hopen' h

/-- C7: the claim that a suppression-marked line is never edited or removed
by the removal pass fails on the code: the multi-line branch of
`_remove_unused_imports` pops a continuation line matching the object name
without consulting `_should_ignore_line`, so a marked continuation line of
a parenthesized import is deleted when its binding is reported unused. -/
theorem C7_counterexample_marked_continuation_removed :
    shouldIgnoreLine "    path,  # noqa: autoimport" = true
    ∧ removeUnusedImports "os.path"
        ["from os import (", "    path,  # noqa: autoimport", "    getcwd,", ")"]
      = .ok ["from os import (", "    getcwd,", ")"] :=
  ⟨by decide, by decide⟩

/-- C7 (amended): a suppression-marked line is never relocated out of the
body by `_move_imports_to_top` (its occurrence count in the body never
drops, and every line scheduled for removal from the body is unmarked),
and `_remove_unused_imports` never removes or edits a marked line through
its statement-level branches — whenever no scanned line opens a
parenthesized multi-line import for the reported package, the count of a
marked line is preserved or grown; a marked *continuation* line inside a
parenthesized import can however still be popped (see the
counterexample). -/
theorem C7_marked_lines_preserved :
    (∀ (sc sc₂ : SourceCode), moveImportsToTop sc = .ok sc₂ →
        ∀ l, shouldIgnoreLine l = true → sc.code.count l ≤ sc₂.code.count l)
    ∧ (∀ (name : String) (imports out : List String) (l : String),
        shouldIgnoreLine l = true →
        (∀ x ∈ imports,
          reMultilineOpen (pyJoin "." (pySplitChar name '.').dropLast) x = false) →
        removeUnusedImports name imports = .ok out →
        imports.count l ≤ out.count l) := by
  constructor
  · intro sc sc₂ h l hl
    simp only [moveImportsToTop] at h
    cases hrec : movePhase1 false false sc.code with
    | error e =>
      rw [hrec] at h
      exact absurd h (by simp [exceptErrorBind])
    | ok r =>
      obtain ⟨c, im, rm, miF, msF⟩ := r
      rw [hrec, exceptOkBind] at h
      simp only [Except.ok.injEq] at h
      obtain ⟨h1, h2⟩ := movePhase1_count l hl sc.code false false c im rm miF msF hrec
      have hcode : sc₂.code = rm.foldl removeFirst c := by rw [← h]
      rw [hcode,
        foldl_removeFirst_count rm c l
          (fun r hr e => by have h3 := h2 r hr; rw [e, hl] at h3; cases h3)]
      exact h1
  · intro name imports out l hl hopen h
    simp only [removeUnusedImports] at h
    exact removeUnusedAux_count _ _ l hl imports imports out (fun x hx => hx) hopen h

/-- C7 witness: the amended preservation statement applied to a body whose
marked import line survives relocation of a later unmarked import, and to
an imports section whose only line is marked and is reported unused. -/
theorem C7_witness :
    (["x = 1", "import os  # noqa: autoimport", "import sys"] : List String).count
        "import os  # noqa: autoimport"
      ≤ (["x = 1", "import os  # noqa: autoimport"] : List String).count
        "import os  # noqa: autoimport"
    ∧ (["from os import getcwd, path  # noqa: autoimport"] : List String).count
        "from os import getcwd, path  # noqa: autoimport"
      ≤ (["from os import getcwd, path  # noqa: autoimport"] : List String).count
        "from os import getcwd, path  # noqa: autoimport" := by
  constructor
  · exact C7_marked_lines_preserved.1
      { code := ["x = 1", "import os  # noqa: autoimport", "import sys"] }
      { imports := ["import sys"], code := ["x = 1", "import os  # noqa: autoimport"] }
      (by decide) "import os  # noqa: autoimport" (by decide)
  · exact C7_marked_lines_preserved.2 "os.path"
      ["from os import getcwd, path  # noqa: autoimport"]
      ["from os import getcwd, path  # noqa: autoimport"]
      "from os import getcwd, path  # noqa: autoimport"
      (by decide) (by decide) (by decide)

/-! ## Claim C8 — resolution order and configuration override -/

/-- C8: `_find_package` consults the (config-merged) common-statements
table first — a hit there is returned whatever the other searchers would
say — and only on a miss falls through to the module, typing and project
searchers in that order, returning the first non-empty result; a truthy
additional-statements table from the configuration overrides the built-in
defaults entry by entry. -/
theorem C8_resolution_order_and_override (mods typs projs : String → Option String)
    (cfg : Config) (name : String) :
    (∀ v, findPackageInCommonStatements cfg name = some v →
        findPackage mods typs projs cfg name = some v)
    ∧ (findPackageInCommonStatements cfg name = none →
        findPackage mods typs projs cfg name
          = ((mods name).orElse fun _ => (typs name).orElse fun _ => projs name))
    ∧ (∀ tbl v, getAdditionalStatements cfg = some tbl → tbl ≠ [] →
        assocLookup tbl name = some v →
        findPackageInCommonStatements cfg name = some v) := by
  refine ⟨?_, ?_, ?_⟩
  · intro v hv
    simp [findPackage, hv]
  · intro hn
    simp only [findPackage, hn]
    cases mods name <;> cases typs name <;> simp [Option.orElse]
  · intro tbl v htbl hne hv
    simp [findPackageInCommonStatements, htbl, hne, dictUpdate, hv, Option.orElse]

/-- C8 witness: with the configuration overriding `Path`, resolution
returns the override, while the built-in default for `Path` is different. -/
theorem C8_witness :
    findPackage noSearch noSearch noSearch overrideConfig "Path"
      = some "from mypath import Path"
    ∧ assocLookup commonStatements "Path" = some "from pathlib import Path" := by
  refine ⟨?_, by decide⟩
  exact (C8_resolution_order_and_override noSearch noSearch noSearch overrideConfig
    "Path").1 "from mypath import Path" (by decide)

/-! ## Claim C9 — unresolved names are non-fatal -/

/-- C9: when no resolver in the chain finds an import string for an
undefined name, `_add_package` leaves the document — in particular the
section of imports — exactly as it was, no error is raised, and the message
loop continues with the remaining findings (the name still enters
`fixed_packages`). -/
theorem C9_unresolved_name_is_nonfatal (mods typs projs : String → Option String)
    (sc : SourceCode) (n : String) (rest : List Msg) (fp : List String)
    (hres : findPackage mods typs projs sc.config n = none) :
    addPackage mods typs projs sc n = sc
    ∧ (fp.contains n = false →
        fixFlakeAux mods typs projs (.undefinedName n :: rest) fp sc
          = fixFlakeAux mods typs projs rest (fp ++ [n]) sc) := by
  constructor
  · simp [addPackage, hres]
  · intro hfp
    have hmem : n ∉ fp := by simpa using hfp
    simp [fixFlakeAux, hfp, hmem, addPackage, hres]

/-- C9 witness: the unresolvable name `zzz` (all searchers empty) changes
nothing and processing terminates normally. -/
theorem C9_witness :
    addPackage noSearch noSearch noSearch {} "zzz" = ({} : SourceCode)
    ∧ fixFlakeAux noSearch noSearch noSearch [.undefinedName "zzz"] [] {}
      = .ok ({} : SourceCode) := by
  have h := C9_unresolved_name_is_nonfatal noSearch noSearch noSearch {} "zzz" [] []
    (by decide)
  exact ⟨h.1, (h.2 (by decide)).trans rfl⟩

/-! ## Claim C10 — semicolon lines with two or more separators -/

/-- A split with at least two parts means the separator occurs. -/
theorem pyContainsChar_of_split (l : String) (c : Char)
    (h : 2 ≤ (pySplitChar l c).length) : pyContainsChar l c = true := by
  by_cases hc : pyContainsChar l c = true
  · exact hc
  · exfalso
    have hnc : c ∉ l.data := by
      simpa [pyContainsChar] using hc
    have hlen : ∀ (cs : List Char) (acc : List Char), c ∉ cs →
        (splitCharAux c acc cs).length = 1 := by
      intro cs
      induction cs with
      | nil => intro acc _; rfl
      | cons y ys ih =>
        intro acc hy
        have hyc : ¬(y = c) := fun e => hy (by simp [e])
        simp [splitCharAux, hyc, ih _ (fun hm => hy (List.mem_cons_of_mem y hm))]
    have := hlen l.data [] hnc
    rw [pySplitChar] at h
    omega

/-- With three or more semicolon-split parts, the two-variable unpacking of
`_split_separation_line` raises `ValueError`. -/
theorem splitSeparationLine_three_parts (l : String)
    (h : 3 ≤ (pySplitChar l ';').length) :
    splitSeparationLine l = .error .valueError := by
  unfold splitSeparationLine
  rcases hxs : pySplitChar l ';' with _ | ⟨a, _ | ⟨b, _ | ⟨c, rest⟩⟩⟩ <;>
    simp_all

/-- Any error of `_split_separation_line` is the `ValueError`. -/
theorem splitSeparationLine_error_eq (l : String) (e : PyErr)
    (h : splitSeparationLine l = .error e) : e = .valueError := by
  unfold splitSeparationLine at h
  rcases hxs : pySplitChar l ';' with _ | ⟨a, _ | ⟨b, _ | ⟨c, rest⟩⟩⟩ <;> simp_all

/-- If the body scan reaches (with the multi-line-string flag down) a line
that is an un-suppressed, `=`-free import-pattern line containing two or
more `;` separators, the scan raises `ValueError`. -/
theorem movePhase1_semicolon_error (l : String)
    (him : reMoveImport l = true) (heq : pyContainsChar l '=' = false)
    (hig : shouldIgnoreLine l = false) (htog : stringToggle l = false)
    (hsemi : 3 ≤ (pySplitChar l ';').length) :
    ∀ (pre post : List String) (mi ms : Bool),
      (∀ r, movePhase1 mi ms pre = .ok r → r.2.2.2.2 = false) →
      movePhase1 mi ms (pre ++ l :: post) = .error .valueError := by
  have hcont : pyContainsChar l ';' = true :=
    pyContainsChar_of_split l ';' (by omega)
  have hsp : splitSeparationLine l = .error .valueError :=
    splitSeparationLine_three_parts l hsemi
  intro pre
  induction pre with
  | nil =>
    intro post mi ms hstate
    have hms : ms = false := hstate ([], [], [], mi, ms) rfl
    subst hms
    simp [movePhase1, htog, heq, him, hig, hcont, hsp, exceptErrorBind]
  | cons p ps ih =>
    intro post mi ms hstate
    simp only [List.cons_append, movePhase1]
    simp only [List.append_eq]
    by_cases h1 : stringToggle p = true
    · rw [if_pos h1]
      have hstate' : ∀ r, movePhase1 mi (!ms) ps = .ok r → r.2.2.2.2 = false :=
        fun r hr => hstate (p :: r.1, r.2)
          (by simp only [movePhase1]; rw [if_pos h1, hr, exceptOkBind])
      rw [ih post mi (!ms) hstate']
      rfl
    · rw [if_neg h1]
      by_cases h2 : ((!pyContainsChar p '=' && !ms && reMoveImport p) || mi) = true
      · rw [if_pos h2]
        by_cases h3 : shouldIgnoreLine p = true
        · rw [if_pos h3]
          have hstate' : ∀ r, movePhase1 mi ms ps = .ok r → r.2.2.2.2 = false :=
            fun r hr => hstate (p :: r.1, r.2)
              (by simp only [movePhase1]
                  rw [if_neg h1, if_pos h2, if_pos h3, hr, exceptOkBind])
          rw [ih post mi ms hstate']
          rfl
        · rw [if_neg h3]
          by_cases h4 : pyContainsChar p ';' = true
          · rw [if_pos h4]
            cases hps : splitSeparationLine p with
            | error e =>
              rw [splitSeparationLine_error_eq p e hps]
              rfl
            | ok pr =>
              obtain ⟨a, b⟩ := pr
              rw [exceptOkBind]
              have hstate' : ∀ r, movePhase1 mi ms ps = .ok r → r.2.2.2.2 = false :=
                fun r hr => hstate (b :: r.1, pyStrip a :: r.2.1, r.2.2)
                  (by simp only [movePhase1]
                      rw [if_neg h1, if_pos h2, if_neg h3, if_pos h4, hps,
                        exceptOkBind, hr, exceptOkBind])
              rw [ih post mi ms hstate']
              rfl
          · rw [if_neg h4]
            have hstate' : ∀ r,
                movePhase1
                  (if pyContainsChar p '(' = true then true
                   else if pyContainsChar p ')' = true then false else mi) ms ps
                  = .ok r → r.2.2.2.2 = false :=
              fun r hr => hstate
                (p :: r.1,
                  (if !(if pyContainsChar p '(' = true then true
                        else if pyContainsChar p ')' = true then false else mi)
                   then pyStrip p else p) :: r.2.1, p :: r.2.2.1, r.2.2.2)
                (by simp only [movePhase1]
                    rw [if_neg h1, if_pos h2, if_neg h3, if_neg h4, hr, exceptOkBind])
            rw [ih post _ ms hstate']
            rfl
      · rw [if_neg h2]
        have hstate' : ∀ r, movePhase1 mi ms ps = .ok r → r.2.2.2.2 = false :=
          fun r hr => hstate (p :: r.1, r.2)
            (by simp only [movePhase1]; rw [if_neg h1, if_neg h2, hr, exceptOkBind])
        rw [ih post mi ms hstate']
        rfl

/-- C10: when the body (after splitting) contains, reachable with the
multi-line-string flag down, a suppression-free `=`-free line matching the
move-pass import pattern with two or more `;` separators (and not itself a
triple-quote toggle line), `fix` raises an uncaught `ValueError` — the
semicolon split unpacks into exactly two variables. -/
theorem C10_double_semicolon_import_line_raises
    (diagnose : String → List Msg) (mods typs projs : String → Option String)
    (cfg : Config) (x : String) (pre post : List String) (l : String)
    (hcode : (splitCode cfg x).code = pre ++ l :: post)
    (him : reMoveImport l = true) (heq : pyContainsChar l '=' = false)
    (hig : shouldIgnoreLine l = false) (htog : stringToggle l = false)
    (hsemi : 3 ≤ (pySplitChar l ';').length)
    (hstate : ∀ r, movePhase1 false false pre = .ok r → r.2.2.2.2 = false) :
    fixString diagnose mods typs projs cfg x = .error .valueError := by
  unfold fixString SourceCode.fix moveImportsToTop
  rw [hcode, movePhase1_semicolon_error l him heq hig htog hsemi pre post false false
    hstate]
  rfl

/-- C10 witness: `"x = 1\nimport os; a(); b()"` — the two-semicolon import
line sits in the body and `fix` raises `ValueError`. -/
theorem C10_witness :
    fixString noFindings noSearch noSearch noSearch {} "x = 1\nimport os; a(); b()"
      = .error .valueError :=
  C10_double_semicolon_import_line_raises noFindings noSearch noSearch noSearch {}
    "x = 1\nimport os; a(); b()" ["x = 1"] [] "import os; a(); b()"
    (by decide) (by decide) (by decide) (by decide) (by decide) (by decide)
    (fun r hr => by
      have h0 : movePhase1 false false ["x = 1"]
          = .ok (["x = 1"], [], [], false, false) := by decide
      rw [h0] at hr
      injection hr with h2
      rw [← h2])

end Autoimport
